import Mathlib

/-!
Verification of the funding-rate arbitrage bot's core logic
(`funding_rate_bot.py`): the data model, the profit arithmetic of
`_calculate_arbitrage_profit`, the pairwise search of
`find_arbitrage_opportunities`, the error-isolating collection of
`collect_all_funding_rates`, and the persistence step of
`scan_opportunities`/`save_opportunities`.

Python floats are embedded as rationals (ℚ); Python dicts used as lookup
tables are embedded as association lists with `List.lookup`; the Python
stable sort `sorted(..., reverse=True)` is embedded as Mathlib's stable
`List.insertionSort` with the reversed comparison.  Code that can raise
(HTTP transport, parsing) is embedded with `Option`-valued oracles.
-/

namespace FundingBot

/-- Structure `FundingRateData`: normalized funding-rate record (one per exchange,
symbol and poll).  Timestamps are abstracted as naturals. -/
structure FundingRateData where
  exchange : String
  symbol : String
  rate : ℚ
  timestamp : ℕ
  next_funding_time : Option ℕ := none
  mark_price : Option ℚ := none
deriving DecidableEq

/-- Structure `ArbitrageOpportunity`: derived record produced by
`_calculate_arbitrage_profit`. -/
structure ArbitrageOpportunity where
  long_exchange : String
  short_exchange : String
  symbol : String
  long_rate : ℚ
  short_rate : ℚ
  rate_difference : ℚ
  potential_profit_8h : ℚ
  estimated_fees : ℚ
  net_profit_8h : ℚ
  next_funding_time : Option ℕ := none
deriving DecidableEq

/-- The state of `FundingRateCollector` that the arbitrage search reads:
the per-exchange fee table and the per-symbol slippage table (both in
percent, as in `config`). -/
structure FundingRateCollector where
  fee_structure : List (String × ℚ)
  slippage_estimates : List (String × ℚ)
deriving DecidableEq

/-- Embedding of `FundingRateCollector._calculate_arbitrage_profit`: fees are
`dict.get(key, default) / 100` with defaults `0.1` (fee, percent) and
`0.05` (slippage, percent); `total_fees = long + short + 2*slippage + 1/500`;
`net = rate_diff - total_fees`. -/
def calculate_arbitrage_profit (c : FundingRateCollector)
    (long_rate short_rate : FundingRateData) (symbol : String) :
    ArbitrageOpportunity :=
  let rate_diff := long_rate.rate - short_rate.rate
  let long_fees := ((c.fee_structure.lookup long_rate.exchange).getD (1/10 : ℚ)) / 100
  let short_fees := ((c.fee_structure.lookup short_rate.exchange).getD (1/10 : ℚ)) / 100
  let slippage := ((c.slippage_estimates.lookup symbol).getD (1/20 : ℚ)) / 100
  let total_fees := long_fees + short_fees + 2 * slippage + 1/500
  let gross_profit_8h := rate_diff
  let net_profit_8h := gross_profit_8h - total_fees
  { long_exchange := long_rate.exchange
    short_exchange := short_rate.exchange
    symbol := symbol
    long_rate := long_rate.rate
    short_rate := short_rate.rate
    rate_difference := rate_diff
    potential_profit_8h := gross_profit_8h
    estimated_fees := total_fees
    net_profit_8h := net_profit_8h
    next_funding_time :=
      long_rate.next_funding_time.orElse fun _ => short_rate.next_funding_time }

/-- One step of building `symbol_groups` in `find_arbitrage_opportunities`:
a Python dict keyed by symbol, keys in first-insertion order, each group
in append order. -/
def addToGroups (groups : List (String × List FundingRateData))
    (d : FundingRateData) : List (String × List FundingRateData) :=
  if groups.any (fun g => g.1 == d.symbol) then
    groups.map (fun g => if g.1 == d.symbol then (g.1, g.2 ++ [d]) else g)
  else
    groups ++ [(d.symbol, [d])]

/-- The `symbol_groups` dict of `find_arbitrage_opportunities`. -/
def groupBySymbol (funding_data : List FundingRateData) :
    List (String × List FundingRateData) :=
  funding_data.foldl addToGroups []

/-- The nested loop `for i in range(n): for j in range(i+1, n)`:
all index-ordered pairs in enumeration order. -/
def pairs {α : Type} : List α → List (α × α)
  | [] => []
  | x :: xs => xs.map (fun y => (x, y)) ++ pairs xs

/-- The body of the pair loop in `find_arbitrage_opportunities`: orient
higher-rate leg as long, keep only `rate_diff > 0.0001`, compute the
opportunity, keep it only when `net_profit_8h > 0`. -/
def processPair (c : FundingRateCollector) (symbol : String)
    (p : FundingRateData × FundingRateData) : Option ArbitrageOpportunity :=
  let long_rate := if p.1.rate > p.2.rate then p.1 else p.2
  let short_rate := if p.1.rate > p.2.rate then p.2 else p.1
  let rate_diff := long_rate.rate - short_rate.rate
  if rate_diff > 1/10000 then
    let opportunity := calculate_arbitrage_profit c long_rate short_rate symbol
    if opportunity.net_profit_8h > 0 then some opportunity else none
  else none

/-- The comparison of `sorted(opportunities, key=lambda x: x.net_profit_8h,
reverse=True)`: `a` may come before `b` iff `b.net_profit_8h ≤ a.net_profit_8h`. -/
def oppGE (a b : ArbitrageOpportunity) : Prop :=
  b.net_profit_8h ≤ a.net_profit_8h

instance : DecidableRel oppGE := fun a b =>
  inferInstanceAs (Decidable (b.net_profit_8h ≤ a.net_profit_8h))

instance : IsTotal ArbitrageOpportunity oppGE :=
  ⟨fun a b => le_total b.net_profit_8h a.net_profit_8h⟩

instance : IsTrans ArbitrageOpportunity oppGE :=
  ⟨fun _ _ _ h1 h2 => le_trans h2 h1⟩

/-- The `opportunities` list of `find_arbitrage_opportunities` before the
final sort: loop over the dict's groups, skip groups of fewer than two
records, enumerate pairs, append the surviving opportunities. -/
def rawOpportunities (c : FundingRateCollector)
    (funding_data : List FundingRateData) : List ArbitrageOpportunity :=
  (groupBySymbol funding_data).flatMap fun g =>
    if g.2.length < 2 then [] else (pairs g.2).filterMap (processPair c g.1)

/-- Embedding of `FundingRateCollector.find_arbitrage_opportunities`. -/
def find_arbitrage_opportunities (c : FundingRateCollector)
    (funding_data : List FundingRateData) : List ArbitrageOpportunity :=
  List.insertionSort oppGE (rawOpportunities c funding_data)

/-- Table `DefaultConfig.EXCHANGE_FEES` (percent): `0.08, 0.08, 0.09, 0.10, 0.09`. -/
def EXCHANGE_FEES : List (String × ℚ) :=
  [("Binance", 2/25), ("Bybit", 2/25), ("OKX", 9/100),
   ("Bitget", 1/10), ("KuCoin", 9/100)]

/-- Table `DefaultConfig.SLIPPAGE_ESTIMATES` (percent):
`0.01, 0.02, 0.03, 0.04, 0.04, 0.03, 0.03`. -/
def SLIPPAGE_ESTIMATES : List (String × ℚ) :=
  [("BTC", 1/100), ("ETH", 1/50), ("SOL", 3/100), ("ADA", 1/25),
   ("MATIC", 1/25), ("DOT", 3/100), ("AVAX", 3/100)]

/-- The collector as constructed with the default configuration. -/
def defaultCollector : FundingRateCollector :=
  { fee_structure := EXCHANGE_FEES, slippage_estimates := SLIPPAGE_ESTIMATES }

/-- One entry of the OKX `data` array, fields as read by `item.get(...)`:
`none` = key absent (the code substitutes a default), `some none` = key
present but its value not parseable as a number (the conversion call
raises, caught by the per-symbol handler), `some (some v)` = parses to `v`. -/
structure OkxItem where
  fundingRate : Option (Option ℚ)
  nextFundingTime : Option (Option ℕ)

/-- Mapping `OKXAPI.symbol_mapping`. -/
def okx_symbol_mapping : List (String × String) :=
  [("BTC", "BTC-USDT-SWAP"), ("ETH", "ETH-USDT-SWAP"), ("SOL", "SOL-USDT-SWAP"),
   ("ADA", "ADA-USDT-SWAP"), ("MATIC", "MATIC-USDT-SWAP"),
   ("DOT", "DOT-USDT-SWAP"), ("AVAX", "AVAX-USDT-SWAP")]

/-- Parse step `float(item.get('fundingRate', 0))`: absent key gives `0`, an
unparseable value raises (modelled as `none`). -/
def parseRate : Option (Option ℚ) → Option ℚ
  | none => some 0
  | some none => none
  | some (some r) => some r

/-- Parse step `if 'nextFundingTime' in item: ... int(item['nextFundingTime'])`:
absent key leaves the field `None`, an unparseable value raises. -/
def parseNext : Option (Option ℕ) → Option (Option ℕ)
  | none => some none
  | some none => none
  | some (some t) => some (some t)

/-- One iteration of the symbol loop in `OKXAPI.get_funding_rates`.
`fetch` is the transport oracle standing for `_make_request`, which maps
any transport failure, non-200 status or unparseable body to `None`
(modelled as `none`); the empty list models a response whose `data`
array is missing or empty.  `none` overall means the iteration appends
nothing (the symbol is skipped). -/
def okxPerSymbol (now : ℕ) (fetch : String → Option (List OkxItem))
    (symbol : String) : Option FundingRateData :=
  match okx_symbol_mapping.lookup symbol with
  | none => none
  | some okx_symbol =>
    match fetch okx_symbol with
    | none => none
    | some [] => none
    | some (item :: _) =>
      match parseRate item.fundingRate with
      | none => none
      | some rate =>
        match parseNext item.nextFundingTime with
        | none => none
        | some nft =>
          some { exchange := "OKX", symbol := symbol, rate := rate,
                 timestamp := now, next_funding_time := nft,
                 mark_price := none }

/-- Embedding of `OKXAPI.get_funding_rates`: the per-symbol loop with its `try/except:
continue` body. -/
def okx_get_funding_rates (now : ℕ) (fetch : String → Option (List OkxItem))
    (symbols : List String) : List FundingRateData :=
  symbols.foldl
    (fun funding_data symbol =>
      match okxPerSymbol now fetch symbol with
      | none => funding_data
      | some d => funding_data ++ [d]) []

/-- Embedding of `FundingRateCollector.collect_all_funding_rates`: each enabled adapter
is a name together with its `get_funding_rates`, which either returns
records or raises (`Except.error`); the surrounding `try/except: continue`
drops a raising adapter and moves on. -/
def collect_all_funding_rates
    (exchanges : List (String × (List String →
      Except String (List FundingRateData))))
    (symbols : List String) : List FundingRateData :=
  exchanges.foldl
    (fun all_funding_data a =>
      match a.2 symbols with
      | Except.ok rates => all_funding_data ++ rates
      | Except.error _ => all_funding_data) []

/-- One element of the JSON array written by
`FundingRateBot.save_opportunities`. -/
structure SavedOpportunity where
  timestamp : String
  symbol : String
  long_exchange : String
  short_exchange : String
  long_rate : ℚ
  short_rate : ℚ
  rate_difference : ℚ
  net_profit_8h_pct : ℚ
  estimated_profit_usd : ℚ
  next_funding_time : Option ℕ
deriving DecidableEq

/-- The dict built for one opportunity in `save_opportunities`;
`iso_now` stands for `datetime.now().isoformat()`. -/
def opportunityRow (iso_now : String) (position_size : ℚ)
    (op : ArbitrageOpportunity) : SavedOpportunity :=
  { timestamp := iso_now
    symbol := op.symbol
    long_exchange := op.long_exchange
    short_exchange := op.short_exchange
    long_rate := op.long_rate
    short_rate := op.short_rate
    rate_difference := op.rate_difference
    net_profit_8h_pct := op.net_profit_8h
    estimated_profit_usd := op.net_profit_8h * position_size
    next_funding_time := op.next_funding_time }

/-- Embedding of `FundingRateBot.save_opportunities` as the file-write request it
issues: the target path and the serialized array.  `ts` stands for
`datetime.now().strftime("%Y%m%d_%H%M%S")`. -/
def save_opportunities (data_dir ts iso_now : String) (position_size : ℚ)
    (opportunities : List ArbitrageOpportunity) :
    String × List SavedOpportunity :=
  (data_dir ++ "/opportunities_" ++ ts ++ ".json",
   opportunities.map (opportunityRow iso_now position_size))

/-- The `profitable_ops` list of `FundingRateBot.scan_opportunities`. -/
def profitable_ops (min_profit_threshold : ℚ)
    (opportunities : List ArbitrageOpportunity) :
    List ArbitrageOpportunity :=
  opportunities.filter
    (fun op => decide (min_profit_threshold ≤ op.net_profit_8h))

/-- The persistence decision of `scan_opportunities`: when
`profitable_ops` is non-empty the whole set is saved, otherwise no file
is written (`none`). -/
def scan_save (data_dir ts iso_now : String)
    (position_size min_profit_threshold : ℚ)
    (opportunities : List ArbitrageOpportunity) :
    Option (String × List SavedOpportunity) :=
  let p := profitable_ops min_profit_threshold opportunities
  if p.isEmpty then none
  else some (save_opportunities data_dir ts iso_now position_size p)

/-- Sample record: BTC on Binance with funding rate `0.01`. -/
def btcBinance : FundingRateData :=
  { exchange := "Binance", symbol := "BTC", rate := 1/100, timestamp := 0 }

/-- Sample record: BTC on Binance with funding rate `0`. -/
def btcBinanceLow : FundingRateData :=
  { exchange := "Binance", symbol := "BTC", rate := 0, timestamp := 0 }

/-- Sample record: BTC on Bybit with funding rate `0`. -/
def btcBybitLow : FundingRateData :=
  { exchange := "Bybit", symbol := "BTC", rate := 0, timestamp := 0 }

/-- Sample input list: one BTC record on each of two exchanges. -/
def sampleRecords : List FundingRateData := [btcBinance, btcBybitLow]

/-- The opportunity produced from `sampleRecords`. -/
def oppCross : ArbitrageOpportunity :=
  calculate_arbitrage_profit defaultCollector btcBinance btcBybitLow "BTC"

/-- A collector whose fee and slippage tables are both empty: every
lookup falls back to the in-code defaults. -/
def emptyCollector : FundingRateCollector :=
  { fee_structure := [], slippage_estimates := [] }

theorem mem_pairs {α : Type} {l : List α} {p : α × α} (h : p ∈ pairs l) :
    p.1 ∈ l ∧ p.2 ∈ l := by
  induction l with
  | nil => simp [pairs] at h
  | cons x xs ih =>
    simp only [pairs, List.mem_append, List.mem_map] at h
    rcases h with ⟨y, hy, hp⟩ | h
    · subst hp
      exact ⟨List.mem_cons_self .., List.mem_cons_of_mem _ hy⟩
    · exact ⟨List.mem_cons_of_mem _ (ih h).1, List.mem_cons_of_mem _ (ih h).2⟩

theorem pairs_of_short {α : Type} {l : List α} (h : l.length < 2) :
    pairs l = [] := by
  match l with
  | [] => rfl
  | [x] => rfl
  | x :: y :: t => exact absurd h (by simp)

theorem mem_addToGroups {acc : List (String × List FundingRateData)}
    {x : FundingRateData} {g : String × List FundingRateData}
    (hg : g ∈ addToGroups acc x) {d : FundingRateData} (hd : d ∈ g.2) :
    (∃ g₀ ∈ acc, g₀.1 = g.1 ∧ d ∈ g₀.2) ∨ (d = x ∧ d.symbol = g.1) := by
  unfold addToGroups at hg
  by_cases hc : acc.any (fun g => g.1 == x.symbol)
  · simp only [if_pos hc, List.mem_map] at hg
    obtain ⟨g₀, hg₀, hgeq⟩ := hg
    by_cases hkey : g₀.1 == x.symbol
    · rw [if_pos hkey] at hgeq
      subst hgeq
      simp only [List.mem_append, List.mem_singleton] at hd
      rcases hd with hd | hd
      · exact Or.inl ⟨g₀, hg₀, rfl, hd⟩
      · subst hd
        exact Or.inr ⟨rfl, (eq_of_beq hkey).symm⟩
    · rw [if_neg hkey] at hgeq
      subst hgeq
      exact Or.inl ⟨g₀, hg₀, rfl, hd⟩
  · simp only [if_neg hc, List.mem_append, List.mem_singleton] at hg
    rcases hg with hg | hg
    · exact Or.inl ⟨g, hg, rfl, hd⟩
    · subst hg
      simp only [List.mem_singleton] at hd
      subst hd
      exact Or.inr ⟨rfl, rfl⟩

theorem mem_foldl_addToGroups (l : List FundingRateData) :
    ∀ (acc : List (String × List FundingRateData))
      (g : String × List FundingRateData), g ∈ l.foldl addToGroups acc →
      ∀ d ∈ g.2,
        (∃ g' ∈ acc, g'.1 = g.1 ∧ d ∈ g'.2) ∨ (d ∈ l ∧ d.symbol = g.1) := by
  induction l with
  | nil =>
    intro acc g hg d hd
    exact Or.inl ⟨g, hg, rfl, hd⟩
  | cons x xs ih =>
    intro acc g hg d hd
    rw [List.foldl_cons] at hg
    rcases ih (addToGroups acc x) g hg d hd with ⟨g', hg', hkey, hd'⟩ | ⟨hdx, hsym⟩
    · rcases mem_addToGroups hg' hd' with ⟨g₀, hg₀, hkey₀, hd₀⟩ | ⟨hdx, hsym⟩
      · exact Or.inl ⟨g₀, hg₀, hkey₀.trans hkey, hd₀⟩
      · subst hdx
        exact Or.inr ⟨List.mem_cons_self .., hsym.trans hkey⟩
    · exact Or.inr ⟨List.mem_cons_of_mem _ hdx, hsym⟩

theorem mem_groupBySymbol {l : List FundingRateData}
    {g : String × List FundingRateData} (hg : g ∈ groupBySymbol l)
    {d : FundingRateData} (hd : d ∈ g.2) : d ∈ l ∧ d.symbol = g.1 := by
  rcases mem_foldl_addToGroups l [] g hg d hd with ⟨g', hg', _⟩ | h
  · simp at hg'
  · exact h

theorem rawOpportunities_eq (c : FundingRateCollector)
    (funding_data : List FundingRateData) :
    rawOpportunities c funding_data =
      (groupBySymbol funding_data).flatMap
        (fun g => (pairs g.2).filterMap (processPair c g.1)) := by
  unfold rawOpportunities
  congr 1
  funext g
  by_cases h : g.2.length < 2
  · rw [if_pos h, pairs_of_short h, List.filterMap_nil]
  · rw [if_neg h]

theorem mem_find_iff {c : FundingRateCollector} {l : List FundingRateData}
    {o : ArbitrageOpportunity} :
    o ∈ find_arbitrage_opportunities c l ↔
      ∃ g ∈ groupBySymbol l, ∃ p ∈ pairs g.2, processPair c g.1 p = some o := by
  unfold find_arbitrage_opportunities
  rw [List.mem_insertionSort, rawOpportunities_eq, List.mem_flatMap]
  constructor
  · rintro ⟨g, hg, ho⟩
    rw [List.mem_filterMap] at ho
    obtain ⟨p, hp, hpo⟩ := ho
    exact ⟨g, hg, p, hp, hpo⟩
  · rintro ⟨g, hg, p, hp, hpo⟩
    exact ⟨g, hg, List.mem_filterMap.mpr ⟨p, hp, hpo⟩⟩

theorem processPair_eq_some {c : FundingRateCollector} {s : String}
    {p : FundingRateData × FundingRateData} {o : ArbitrageOpportunity}
    (h : processPair c s p = some o) :
    ∃ long short : FundingRateData,
      ((long = p.1 ∧ short = p.2) ∨ (long = p.2 ∧ short = p.1)) ∧
      short.rate ≤ long.rate ∧
      1/10000 < long.rate - short.rate ∧
      0 < (calculate_arbitrage_profit c long short s).net_profit_8h ∧
      o = calculate_arbitrage_profit c long short s := by
  simp only [processPair] at h
  by_cases hgt : p.1.rate > p.2.rate
  · simp only [if_pos hgt] at h
    by_cases hd : p.1.rate - p.2.rate > 1/10000
    · rw [if_pos hd] at h
      by_cases hn : (calculate_arbitrage_profit c p.1 p.2 s).net_profit_8h > 0
      · rw [if_pos hn, Option.some.injEq] at h
        exact ⟨p.1, p.2, Or.inl ⟨rfl, rfl⟩, le_of_lt hgt, hd, hn, h.symm⟩
      · rw [if_neg hn] at h
        exact absurd h (by simp)
    · rw [if_neg hd] at h
      exact absurd h (by simp)
  · simp only [if_neg hgt] at h
    by_cases hd : p.2.rate - p.1.rate > 1/10000
    · rw [if_pos hd] at h
      by_cases hn : (calculate_arbitrage_profit c p.2 p.1 s).net_profit_8h > 0
      · rw [if_pos hn, Option.some.injEq] at h
        exact ⟨p.2, p.1, Or.inr ⟨rfl, rfl⟩, le_of_not_lt hgt, hd, hn, h.symm⟩
      · rw [if_neg hn] at h
        exact absurd h (by simp)
    · rw [if_neg hd] at h
      exact absurd h (by simp)

theorem calc_long_exchange (c : FundingRateCollector)
    (a b : FundingRateData) (s : String) :
    (calculate_arbitrage_profit c a b s).long_exchange = a.exchange := rfl

theorem calc_short_exchange (c : FundingRateCollector)
    (a b : FundingRateData) (s : String) :
    (calculate_arbitrage_profit c a b s).short_exchange = b.exchange := rfl

theorem calc_symbol (c : FundingRateCollector)
    (a b : FundingRateData) (s : String) :
    (calculate_arbitrage_profit c a b s).symbol = s := rfl

theorem calc_long_rate (c : FundingRateCollector)
    (a b : FundingRateData) (s : String) :
    (calculate_arbitrage_profit c a b s).long_rate = a.rate := rfl

theorem calc_short_rate (c : FundingRateCollector)
    (a b : FundingRateData) (s : String) :
    (calculate_arbitrage_profit c a b s).short_rate = b.rate := rfl

theorem calc_rate_difference (c : FundingRateCollector)
    (a b : FundingRateData) (s : String) :
    (calculate_arbitrage_profit c a b s).rate_difference = a.rate - b.rate := rfl

theorem calc_potential (c : FundingRateCollector)
    (a b : FundingRateData) (s : String) :
    (calculate_arbitrage_profit c a b s).potential_profit_8h =
      a.rate - b.rate := rfl

theorem calc_estimated_fees (c : FundingRateCollector)
    (a b : FundingRateData) (s : String) :
    (calculate_arbitrage_profit c a b s).estimated_fees =
      ((c.fee_structure.lookup a.exchange).getD (1/10)) / 100 +
      ((c.fee_structure.lookup b.exchange).getD (1/10)) / 100 +
      2 * (((c.slippage_estimates.lookup s).getD (1/20)) / 100) + 1/500 := rfl

theorem calc_net_profit (c : FundingRateCollector)
    (a b : FundingRateData) (s : String) :
    (calculate_arbitrage_profit c a b s).net_profit_8h =
      (a.rate - b.rate) -
        (((c.fee_structure.lookup a.exchange).getD (1/10)) / 100 +
         ((c.fee_structure.lookup b.exchange).getD (1/10)) / 100 +
         2 * (((c.slippage_estimates.lookup s).getD (1/20)) / 100) + 1/500) := rfl

theorem filter_orderedInsert (v : ℚ) (a : ArbitrageOpportunity)
    (l : List ArbitrageOpportunity) :
    (List.orderedInsert oppGE a l).filter (fun o => decide (o.net_profit_8h = v)) =
      if a.net_profit_8h = v then
        a :: l.filter (fun o => decide (o.net_profit_8h = v))
      else l.filter (fun o => decide (o.net_profit_8h = v)) := by
  induction l with
  | nil =>
    simp only [List.orderedInsert, List.filter_cons, List.filter_nil,
      decide_eq_true_eq]
  | cons b t ih =>
    by_cases hab : oppGE a b
    · simp only [List.orderedInsert, if_pos hab, List.filter_cons,
        decide_eq_true_eq]
    · have hlt : a.net_profit_8h < b.net_profit_8h := lt_of_not_le hab
      simp only [List.orderedInsert, if_neg hab, List.filter_cons,
        decide_eq_true_eq, ih]
      by_cases hb : b.net_profit_8h = v
      · have ha : ¬ a.net_profit_8h = v := by
          intro h
          rw [h, hb] at hlt
          exact lt_irrefl _ hlt
        simp [hb, ha]
      · simp [hb]

theorem filter_insertionSort (v : ℚ) (l : List ArbitrageOpportunity) :
    (List.insertionSort oppGE l).filter (fun o => decide (o.net_profit_8h = v)) =
      l.filter (fun o => decide (o.net_profit_8h = v)) := by
  induction l with
  | nil => rfl
  | cons a t ih =>
    simp only [List.insertionSort, filter_orderedInsert, ih, List.filter_cons,
      decide_eq_true_eq]

theorem collect_all_foldl
    (exchanges : List (String × (List String →
      Except String (List FundingRateData))))
    (symbols : List String) :
    ∀ acc : List FundingRateData,
      exchanges.foldl
        (fun all_funding_data a =>
          match a.2 symbols with
          | Except.ok rates => all_funding_data ++ rates
          | Except.error _ => all_funding_data) acc =
      acc ++ (exchanges.filterMap (fun a => (a.2 symbols).toOption)).flatten := by
  induction exchanges with
  | nil => intro acc; simp
  | cons x xs ih =>
    intro acc
    rw [List.foldl_cons, List.filterMap_cons]
    cases hx : x.2 symbols with
    | ok rates => simp [hx, ih, Except.toOption]
    | error e => simp [hx, ih, Except.toOption]

theorem okx_foldl (now : ℕ) (fetch : String → Option (List OkxItem))
    (symbols : List String) :
    ∀ acc : List FundingRateData,
      symbols.foldl
        (fun funding_data symbol =>
          match okxPerSymbol now fetch symbol with
          | none => funding_data
          | some d => funding_data ++ [d]) acc =
      acc ++ symbols.filterMap (okxPerSymbol now fetch) := by
  induction symbols with
  | nil => intro acc; simp
  | cons s ss ih =>
    intro acc
    rw [List.foldl_cons, List.filterMap_cons]
    cases hs : okxPerSymbol now fetch s with
    | none => simp [hs, ih]
    | some d => simp [hs, ih]

theorem lookup_table_nonneg (t : List (String × ℚ)) (k : String) (d : ℚ)
    (hd : 0 ≤ d) (ht : ∀ p ∈ t, 0 ≤ p.2) : 0 ≤ (t.lookup k).getD d := by
  induction t with
  | nil => exact hd
  | cons a s ih =>
    rw [List.lookup]
    cases hk : (k == a.1) with
    | true =>
      simp only [hk]
      exact ht a (List.mem_cons_self ..)
    | false =>
      simp only [hk]
      exact ih fun p hp => ht p (List.mem_cons_of_mem _ hp)

theorem find_sampleRecords :
    find_arbitrage_opportunities defaultCollector sampleRecords = [oppCross] := by
  have hbb : ("Bybit" == "Binance") = false := rfl
  norm_num [hbb,find_arbitrage_opportunities, rawOpportunities, groupBySymbol,
    addToGroups, pairs, processPair, calculate_arbitrage_profit,
    defaultCollector, EXCHANGE_FEES, SLIPPAGE_ESTIMATES, List.insertionSort,
    List.orderedInsert, oppGE, List.lookup, List.filterMap_cons,
    sampleRecords, btcBinance, btcBybitLow, oppCross]

theorem oppCross_mem :
    oppCross ∈ find_arbitrage_opportunities defaultCollector sampleRecords := by
  rw [find_sampleRecords]
  exact List.mem_singleton.mpr rfl

/-- C1: for every pair of funding-rate records, `_calculate_arbitrage_profit`
returns an opportunity with
`net_profit_8h = rate_difference − (fee_long + fee_short + 2·slippage + 0.002)`,
where the fees are the configured per-exchange fee-table entries (percent)
divided by 100 and the slippage is the per-symbol table entry divided by
100; `estimated_fees` equals that fee sum and the gross
`potential_profit_8h` equals `rate_difference`. -/
theorem C1_profit_formula (c : FundingRateCollector)
    (long short : FundingRateData) (symbol : String) (fl fs sl : ℚ)
    (hfl : c.fee_structure.lookup long.exchange = some fl)
    (hfs : c.fee_structure.lookup short.exchange = some fs)
    (hsl : c.slippage_estimates.lookup symbol = some sl) :
    (calculate_arbitrage_profit c long short symbol).net_profit_8h =
      (calculate_arbitrage_profit c long short symbol).rate_difference -
        (fl / 100 + fs / 100 + 2 * (sl / 100) + 1/500) ∧
    (calculate_arbitrage_profit c long short symbol).estimated_fees =
      fl / 100 + fs / 100 + 2 * (sl / 100) + 1/500 ∧
    (calculate_arbitrage_profit c long short symbol).potential_profit_8h =
      (calculate_arbitrage_profit c long short symbol).rate_difference := by
  refine ⟨?_, ?_, rfl⟩ <;>
    simp [calc_net_profit, calc_estimated_fees, calc_rate_difference,
      hfl, hfs, hsl]

theorem C1_profit_formula_witness :
    (calculate_arbitrage_profit defaultCollector btcBinance btcBybitLow
        "BTC").net_profit_8h =
      (calculate_arbitrage_profit defaultCollector btcBinance btcBybitLow
          "BTC").rate_difference -
        ((2/25) / 100 + (2/25) / 100 + 2 * ((1/100) / 100) + 1/500) ∧
    (calculate_arbitrage_profit defaultCollector btcBinance btcBybitLow
        "BTC").estimated_fees =
      (2/25) / 100 + (2/25) / 100 + 2 * ((1/100) / 100) + 1/500 ∧
    (calculate_arbitrage_profit defaultCollector btcBinance btcBybitLow
        "BTC").potential_profit_8h =
      (calculate_arbitrage_profit defaultCollector btcBinance btcBybitLow
          "BTC").rate_difference :=
  C1_profit_formula defaultCollector btcBinance btcBybitLow "BTC"
    (2/25) (2/25) (1/100) rfl rfl rfl

/-- C2: every opportunity returned by `find_arbitrage_opportunities`
satisfies `long_rate ≥ short_rate` and
`rate_difference = long_rate − short_rate ≥ 0`: the record with the
numerically larger rate is assigned as the long leg. -/
theorem C2_long_ge_short (c : FundingRateCollector)
    (l : List FundingRateData) (o : ArbitrageOpportunity)
    (h : o ∈ find_arbitrage_opportunities c l) :
    o.short_rate ≤ o.long_rate ∧
    o.rate_difference = o.long_rate - o.short_rate ∧
    0 ≤ o.rate_difference := by
  obtain ⟨g, hg, p, hp, hsome⟩ := mem_find_iff.mp h
  obtain ⟨long, short, _, hle, hdiff, _, ho⟩ := processPair_eq_some hsome
  subst ho
  rw [calc_long_rate, calc_short_rate, calc_rate_difference]
  exact ⟨hle, rfl, sub_nonneg.mpr hle⟩

theorem C2_long_ge_short_witness :
    oppCross.short_rate ≤ oppCross.long_rate ∧
    oppCross.rate_difference = oppCross.long_rate - oppCross.short_rate ∧
    0 ≤ oppCross.rate_difference :=
  C2_long_ge_short defaultCollector sampleRecords oppCross oppCross_mem

/-- C3: an opportunity appears in the output of
`find_arbitrage_opportunities` only if it arises from an unordered pair of
distinct records of the same symbol with
`rate_difference > 0.0001`; in particular a symbol with a single record
yields no opportunity. -/
theorem C3_pair_origin (c : FundingRateCollector)
    (l : List FundingRateData) (o : ArbitrageOpportunity)
    (h : o ∈ find_arbitrage_opportunities c l) :
    1/10000 < o.rate_difference ∧
    ∃ d1 ∈ l, ∃ d2 ∈ l, d1 ≠ d2 ∧
      d1.symbol = o.symbol ∧ d2.symbol = o.symbol ∧
      d1.exchange = o.long_exchange ∧ d2.exchange = o.short_exchange ∧
      d1.rate = o.long_rate ∧ d2.rate = o.short_rate := by
  obtain ⟨g, hg, p, hp, hsome⟩ := mem_find_iff.mp h
  obtain ⟨long, short, horient, _, hdiff, _, ho⟩ := processPair_eq_some hsome
  have hmem := mem_pairs hp
  have hlmem : long ∈ g.2 := by
    rcases horient with ⟨h1, _⟩ | ⟨h1, _⟩
    · exact h1 ▸ hmem.1
    · exact h1 ▸ hmem.2
  have hsmem : short ∈ g.2 := by
    rcases horient with ⟨_, h2⟩ | ⟨_, h2⟩
    · exact h2 ▸ hmem.2
    · exact h2 ▸ hmem.1
  have hl := mem_groupBySymbol hg hlmem
  have hs := mem_groupBySymbol hg hsmem
  have hne : long ≠ short := by
    intro he
    rw [he, sub_self] at hdiff
    exact absurd hdiff (by norm_num)
  subst ho
  rw [calc_rate_difference, calc_symbol, calc_long_exchange,
    calc_short_exchange, calc_long_rate, calc_short_rate]
  exact ⟨hdiff, long, hl.1, short, hs.1, hne,
    hl.2.trans (calc_symbol c long short g.1).symm ▸ hl.2,
    hs.2, rfl, rfl, rfl, rfl⟩

theorem C3_pair_origin_witness :
    1/10000 < oppCross.rate_difference ∧
    ∃ d1 ∈ sampleRecords, ∃ d2 ∈ sampleRecords, d1 ≠ d2 ∧
      d1.symbol = oppCross.symbol ∧ d2.symbol = oppCross.symbol ∧
      d1.exchange = oppCross.long_exchange ∧
      d2.exchange = oppCross.short_exchange ∧
      d1.rate = oppCross.long_rate ∧ d2.rate = oppCross.short_rate :=
  C3_pair_origin defaultCollector sampleRecords oppCross oppCross_mem

/-- C4: no opportunity with `net_profit_8h ≤ 0` is returned, and every
opportunity constructed from a surviving pair whose `net_profit_8h` is
positive is included in the result. -/
theorem C4_positive_net_filter (c : FundingRateCollector)
    (l : List FundingRateData) :
    (∀ o ∈ find_arbitrage_opportunities c l, 0 < o.net_profit_8h) ∧
    (∀ g ∈ groupBySymbol l, ∀ p ∈ pairs g.2, ∀ o : ArbitrageOpportunity,
      processPair c g.1 p = some o → o ∈ find_arbitrage_opportunities c l) := by
  constructor
  · intro o h
    obtain ⟨g, hg, p, hp, hsome⟩ := mem_find_iff.mp h
    obtain ⟨long, short, _, _, _, hn, ho⟩ := processPair_eq_some hsome
    exact ho ▸ hn
  · intro g hg p hp o hsome
    exact mem_find_iff.mpr ⟨g, hg, p, hp, hsome⟩

theorem C4_positive_net_filter_witness : 0 < oppCross.net_profit_8h :=
  (C4_positive_net_filter defaultCollector sampleRecords).1 oppCross
    oppCross_mem

/-- C5: the list returned by `find_arbitrage_opportunities` is sorted in
non-increasing order of `net_profit_8h`. -/
theorem C5_sorted_descending (c : FundingRateCollector)
    (l : List FundingRateData) :
    (find_arbitrage_opportunities c l).Pairwise
      (fun a b => b.net_profit_8h ≤ a.net_profit_8h) :=
  List.sorted_insertionSort oppGE (rawOpportunities c l)

/-- C6: `find_arbitrage_opportunities` is deterministic — identical input
and identical fee/slippage tables give identical output — and the sort is
stable: opportunities of equal `net_profit_8h` appear in the order their
pairs were enumerated (the order of `rawOpportunities`). -/
theorem C6_deterministic_stable :
    (∀ (c₁ c₂ : FundingRateCollector) (l : List FundingRateData),
        c₁.fee_structure = c₂.fee_structure →
        c₁.slippage_estimates = c₂.slippage_estimates →
        find_arbitrage_opportunities c₁ l = find_arbitrage_opportunities c₂ l) ∧
    (∀ (c : FundingRateCollector) (l : List FundingRateData) (v : ℚ),
        (find_arbitrage_opportunities c l).filter
            (fun o => decide (o.net_profit_8h = v)) =
          (rawOpportunities c l).filter
            (fun o => decide (o.net_profit_8h = v))) := by
  constructor
  · intro c₁ c₂ l h1 h2
    have hc : c₁ = c₂ := by
      obtain ⟨f1, s1⟩ := c₁
      obtain ⟨f2, s2⟩ := c₂
      have hf : f1 = f2 := h1
      have hs : s1 = s2 := h2
      rw [hf, hs]
    rw [hc]
  · intro c l v
    exact filter_insertionSort v (rawOpportunities c l)

theorem C6_deterministic_stable_witness :
    find_arbitrage_opportunities defaultCollector sampleRecords =
      find_arbitrage_opportunities
        ⟨EXCHANGE_FEES, SLIPPAGE_ESTIMATES⟩ sampleRecords ∧
    (find_arbitrage_opportunities defaultCollector sampleRecords).filter
        (fun o => decide (o.net_profit_8h = 31/5000)) =
      (rawOpportunities defaultCollector sampleRecords).filter
        (fun o => decide (o.net_profit_8h = 31/5000)) :=
  ⟨C6_deterministic_stable.1 defaultCollector
      ⟨EXCHANGE_FEES, SLIPPAGE_ESTIMATES⟩ sampleRecords rfl rfl,
   C6_deterministic_stable.2 defaultCollector sampleRecords (31/5000)⟩

/-- C7: a failure confined to one adapter or one symbol never aborts
collection.  `collect_all_funding_rates` runs every enabled adapter in
order, skips exactly the adapters that raise and concatenates the
remaining results; `OKXAPI.get_funding_rates` returns, for every
transport oracle (including ones that fail or return malformed payloads
for some symbols), the per-symbol results of the non-failing symbols in
order — it never fails as a whole. -/
theorem C7_error_isolation :
    (∀ (exchanges : List (String × (List String →
          Except String (List FundingRateData))))
        (symbols : List String),
        collect_all_funding_rates exchanges symbols =
          (exchanges.filterMap (fun a => (a.2 symbols).toOption)).flatten) ∧
    (∀ (now : ℕ) (fetch : String → Option (List OkxItem))
        (symbols : List String),
        okx_get_funding_rates now fetch symbols =
          symbols.filterMap (okxPerSymbol now fetch)) := by
  constructor
  · intro exchanges symbols
    simpa using collect_all_foldl exchanges symbols []
  · intro now fetch symbols
    simpa using okx_foldl now fetch symbols []

theorem scan_save_eq (data_dir ts iso_now : String)
    (position_size min_profit_threshold : ℚ)
    (opportunities : List ArbitrageOpportunity) :
    scan_save data_dir ts iso_now position_size min_profit_threshold
        opportunities =
      if profitable_ops min_profit_threshold opportunities = [] then none
      else some (save_opportunities data_dir ts iso_now position_size
        (profitable_ops min_profit_threshold opportunities)) := by
  simp only [scan_save]
  cases hp : profitable_ops min_profit_threshold opportunities with
  | nil => simp [hp]
  | cons a t => simp [hp]

/-- C8: when at least one detected opportunity clears the minimum-profit
threshold, the entire profitable set is serialized, row for row, with
`estimated_profit_usd = net_profit_8h × position_size`, to
`<output_dir>/opportunities_<timestamp>.json`; when none clears it, no
file is written. -/
theorem C8_persistence (data_dir ts iso_now : String)
    (position_size min_profit_threshold : ℚ)
    (opportunities : List ArbitrageOpportunity) :
    (scan_save data_dir ts iso_now position_size min_profit_threshold
        opportunities = none ↔
      profitable_ops min_profit_threshold opportunities = []) ∧
    (∀ (fname : String) (rows : List SavedOpportunity),
      scan_save data_dir ts iso_now position_size min_profit_threshold
          opportunities = some (fname, rows) →
      fname = data_dir ++ "/opportunities_" ++ ts ++ ".json" ∧
      rows = (profitable_ops min_profit_threshold opportunities).map
        (opportunityRow iso_now position_size) ∧
      ∀ r ∈ rows,
        r.estimated_profit_usd = r.net_profit_8h_pct * position_size) := by
  constructor
  · rw [scan_save_eq]
    by_cases hp : profitable_ops min_profit_threshold opportunities = []
    · simp [hp]
    · simp [hp]
  · intro fname rows hsome
    rw [scan_save_eq] at hsome
    by_cases hp : profitable_ops min_profit_threshold opportunities = []
    · rw [if_pos hp] at hsome
      exact absurd hsome (by simp)
    · rw [if_neg hp] at hsome
      have heq := Option.some.inj hsome
      have h1 : data_dir ++ "/opportunities_" ++ ts ++ ".json" = fname :=
        congrArg Prod.fst heq
      have h2 : (profitable_ops min_profit_threshold opportunities).map
          (opportunityRow iso_now position_size) = rows :=
        congrArg Prod.snd heq
      refine ⟨h1.symm, h2.symm, ?_⟩
      intro r hr
      rw [← h2] at hr
      obtain ⟨op, _, hop⟩ := List.mem_map.mp hr
      rw [← hop]
      rfl

theorem profitable_oppCross :
    profitable_ops (1/1000) [oppCross] = [oppCross] := by
  have hbb : ("Bybit" == "Binance") = false := rfl
  norm_num [hbb, profitable_ops, List.filter_cons, oppCross,
    calculate_arbitrage_profit, defaultCollector, EXCHANGE_FEES,
    SLIPPAGE_ESTIMATES, List.lookup, btcBinance, btcBybitLow]

theorem C8_persistence_witness :
    "data" ++ "/opportunities_" ++ "20250101_000000" ++ ".json" =
      "data" ++ "/opportunities_" ++ "20250101_000000" ++ ".json" ∧
    [opportunityRow "2025-01-01T00:00:00" 1000 oppCross] =
      (profitable_ops (1/1000) [oppCross]).map
        (opportunityRow "2025-01-01T00:00:00" 1000) ∧
    ∀ r ∈ [opportunityRow "2025-01-01T00:00:00" 1000 oppCross],
      r.estimated_profit_usd = r.net_profit_8h_pct * 1000 :=
  (C8_persistence "data" "20250101_000000" "2025-01-01T00:00:00" 1000
      (1/1000) [oppCross]).2
    ("data" ++ "/opportunities_" ++ "20250101_000000" ++ ".json")
    [opportunityRow "2025-01-01T00:00:00" 1000 oppCross]
    (by rw [scan_save_eq, profitable_oppCross]
        rfl)

/-- C9: an exchange absent from the fee table is charged the default
`0.1` percent (`1/1000` as a fraction) per leg and a symbol absent from
the slippage table gets the default `0.05` percent (`1/2000` as a
fraction); with non-negative table entries (as in the shipped
configuration) `estimated_fees` is therefore always at least `0.002`. -/
theorem C9_lookup_defaults :
    (∀ (c : FundingRateCollector) (long short : FundingRateData)
        (symbol : String),
        c.fee_structure.lookup long.exchange = none →
        c.fee_structure.lookup short.exchange = none →
        c.slippage_estimates.lookup symbol = none →
        (calculate_arbitrage_profit c long short symbol).estimated_fees =
          1/1000 + 1/1000 + 2 * (1/2000) + 1/500) ∧
    (∀ (c : FundingRateCollector) (long short : FundingRateData)
        (symbol : String),
        (∀ p ∈ c.fee_structure, 0 ≤ p.2) →
        (∀ p ∈ c.slippage_estimates, 0 ≤ p.2) →
        1/500 ≤ (calculate_arbitrage_profit c long short
          symbol).estimated_fees) := by
  constructor
  · intro c long short symbol hfl hfs hsl
    rw [calc_estimated_fees, hfl, hfs, hsl]
    norm_num
  · intro c long short symbol hf hs
    rw [calc_estimated_fees]
    have h1 : 0 ≤ (c.fee_structure.lookup long.exchange).getD (1/10) :=
      lookup_table_nonneg _ _ _ (by norm_num) hf
    have h2 : 0 ≤ (c.fee_structure.lookup short.exchange).getD (1/10) :=
      lookup_table_nonneg _ _ _ (by norm_num) hf
    have h3 : 0 ≤ (c.slippage_estimates.lookup symbol).getD (1/20) :=
      lookup_table_nonneg _ _ _ (by norm_num) hs
    have d1 : 0 ≤ (c.fee_structure.lookup long.exchange).getD (1/10) / 100 :=
      div_nonneg h1 (by norm_num)
    have d2 : 0 ≤ (c.fee_structure.lookup short.exchange).getD (1/10) / 100 :=
      div_nonneg h2 (by norm_num)
    have d3 : 0 ≤ (c.slippage_estimates.lookup symbol).getD (1/20) / 100 :=
      div_nonneg h3 (by norm_num)
    linarith

theorem C9_lookup_defaults_witness :
    (calculate_arbitrage_profit emptyCollector btcBinance btcBybitLow
        "BTC").estimated_fees = 1/1000 + 1/1000 + 2 * (1/2000) + 1/500 ∧
    1/500 ≤ (calculate_arbitrage_profit defaultCollector btcBinance
      btcBybitLow "BTC").estimated_fees :=
  ⟨C9_lookup_defaults.1 emptyCollector btcBinance btcBybitLow "BTC"
      rfl rfl rfl,
   C9_lookup_defaults.2 defaultCollector btcBinance btcBybitLow "BTC"
      (by intro p hp
          fin_cases hp <;> norm_num)
      (by intro p hp
          fin_cases hp <;> norm_num)⟩

/-- C10: the two legs of a pair need not come from different exchanges:
for an input holding two BTC records from Binance whose rates differ by
more than the threshold and the fees, the returned opportunity has
`long_exchange = short_exchange = "Binance"`. -/
theorem C10_same_exchange_allowed :
    btcBinance.exchange = btcBinanceLow.exchange ∧
    btcBinance.symbol = btcBinanceLow.symbol ∧
    (find_arbitrage_opportunities defaultCollector
        [btcBinance, btcBinanceLow]).map
      (fun o => (o.long_exchange, o.short_exchange)) =
        [("Binance", "Binance")] := by
  refine ⟨rfl, rfl, ?_⟩
  norm_num [find_arbitrage_opportunities, rawOpportunities, groupBySymbol,
    addToGroups, pairs, processPair, calculate_arbitrage_profit,
    defaultCollector, EXCHANGE_FEES, SLIPPAGE_ESTIMATES, List.insertionSort,
    List.orderedInsert, oppGE, List.lookup, List.filterMap_cons,
    btcBinance, btcBinanceLow]

end FundingBot
